import Mathlib

/-!
Verification of the OPUS-Net Daily Position App's parse-filter-convert
pipeline (file `OPUS_net_Daily_Position_App.py`), shallow-embedded in Lean.

The embedding follows the Python source:
* `read_txt_from_url` reads whitespace-delimited lines into a ten-column
  table (`pd.read_csv` with ten column names), combines the `YYYY` and `DDD`
  columns with `pd.to_datetime(format='%Y%j')` and stores the result as an
  `MM/DD/YYYY` string column `Date`;
* the Show Data handler filters rows by
  `pd.to_datetime(Date) >= pd.to_datetime(start_date)` and truncates with
  `.head(rows_to_show)`;
* the Convert handler maps each filtered row to latitude/longitude/height
  plus pass-through sigmas.

Machine floats are modelled as rationals for the tabular data (which is only
ever passed through) and as real numbers for the geodetic conversion.
-/

namespace OpusNet

/-! ## Calendar dates

The Python code represents dates as `pandas.Timestamp`s created from a
year/day-of-year pair and later re-created from `MM/DD/YYYY` strings.  We
model a calendar date by its year, month and day fields. -/

structure Date where
  year : Nat
  month : Nat
  day : Nat
deriving DecidableEq, Repr

/-- Proleptic-Gregorian leap-year test, as used by `pandas.to_datetime`. -/
def isLeap (y : Nat) : Bool :=
  (y % 4 == 0 && y % 100 != 0) || y % 400 == 0

/-- Month lengths of year `y`, January first. -/
def monthLengths (y : Nat) : List Nat :=
  [31, if isLeap y then 29 else 28, 31, 30, 31, 30, 31, 31, 30, 31, 30, 31]

/-- Number of days in year `y`. -/
def daysInYear (y : Nat) : Nat := if isLeap y then 366 else 365

/-- Number of days of month `m` (1-based) in year `y`. -/
def daysInMonth (y m : Nat) : Nat := (monthLengths y).getD (m - 1) 0

/-- Walk a list of month lengths, producing the 1-based month index and the
day within that month for the 1-based ordinal day `d`; `none` when `d`
overruns the list. -/
def splitOrdinal : List Nat → Nat → Option (Nat × Nat)
  | [], _ => none
  | len :: rest, d =>
    if d ≤ len then some (1, d)
    else (splitOrdinal rest (d - len)).map (fun p => (p.1 + 1, p.2))

/-- The julian branch of strptime (ported verbatim into pandas), i.e.
`date.fromordinal((julian - 1) + date(year, 1, 1).toordinal())`: day `doy`
counted from January 1 of year `y`, rolling over into the next year when
the count exceeds the year's length — no in-year range validation is
performed beyond what the `%j` pattern admits, so day 366 of a common year
silently becomes January 1 of the following year.  (For the `1 ≤ doy ≤ 366`
inputs the format admits, at most one year of rollover can occur.) -/
def julianToDate (y doy : Nat) : Option Date :=
  if doy ≤ daysInYear y then
    (splitOrdinal (monthLengths y) doy).map (fun p => ⟨y, p.1, p.2⟩)
  else
    (splitOrdinal (monthLengths (y + 1)) (doy - daysInYear y)).map
      (fun p => ⟨y + 1, p.1, p.2⟩)

/-- Day-of-year of a date: days of the preceding months plus the day. -/
def dayOfYearOf (dt : Date) : Nat :=
  ((monthLengths dt.year).take (dt.month - 1)).sum + dt.day

/-- A well-formed Gregorian calendar date with a four-digit year (every date
the app manipulates is of this shape). -/
def validDate (dt : Date) : Prop :=
  1 ≤ dt.month ∧ dt.month ≤ 12 ∧ 1 ≤ dt.day ∧ dt.day ≤ daysInMonth dt.year dt.month
    ∧ dt.year ≤ 9999

instance (dt : Date) : Decidable (validDate dt) := by
  unfold validDate; infer_instance

/-- Chronological key: `pandas.Timestamp` comparison on calendar dates agrees
with lexicographic (year, month, day) comparison, i.e. with this key for
months and days below 100. -/
def dateKey (dt : Date) : Nat := dt.year * 10000 + dt.month * 100 + dt.day

/-! ## `MM/DD/YYYY` strings

`read_txt_from_url` stores `Date` as `strftime('%m/%d/%Y')` output; the
Show Data handler re-parses those strings with `pd.to_datetime`. -/

/-- The decimal digit character for `n < 10`. -/
def digitChar (n : Nat) : Char := Char.ofNat (48 + n)

/-- Numeric value of a digit character. -/
def digitVal (c : Char) : Nat := c.toNat - 48

/-- `strftime('%m/%d/%Y')`: zero-padded month and day, four-digit year. -/
def formatDate (dt : Date) : String :=
  ⟨[digitChar (dt.month / 10 % 10), digitChar (dt.month % 10), '/',
    digitChar (dt.day / 10 % 10), digitChar (dt.day % 10), '/',
    digitChar (dt.year / 1000 % 10), digitChar (dt.year / 100 % 10),
    digitChar (dt.year / 10 % 10), digitChar (dt.year % 10)]⟩

/-- `pd.to_datetime` on an `MM/DD/YYYY` string: ten characters, slashes in
the right places, all other characters digits, and the fields a real
calendar date. -/
def parseMMDDYYYY (s : String) : Option Date :=
  match s.data with
  | [m1, m2, '/', d1, d2, '/', y1, y2, y3, y4] =>
    if m1.isDigit && m2.isDigit && d1.isDigit && d2.isDigit
        && y1.isDigit && y2.isDigit && y3.isDigit && y4.isDigit then
      let dt : Date :=
        ⟨digitVal y1 * 1000 + digitVal y2 * 100 + digitVal y3 * 10 + digitVal y4,
         digitVal m1 * 10 + digitVal m2,
         digitVal d1 * 10 + digitVal d2⟩
      if 1 ≤ dt.month ∧ dt.month ≤ 12 ∧ 1 ≤ dt.day ∧ dt.day ≤ daysInMonth dt.year dt.month
      then some dt else none
    else none
  | _ => none

/-- Plain lexicographic comparison of character sequences — what comparing
the stored `MM/DD/YYYY` strings directly (without re-parsing) would do. -/
def lexLt : List Char → List Char → Bool
  | [], [] => false
  | [], _ :: _ => true
  | _ :: _, [] => false
  | a :: as, b :: bs => if a < b then true else if b < a then false else lexLt as bs

/-! ### Round-trip lemmas for the date embedding -/

theorem digitChar_isDigit {k : Nat} (h : k < 10) : (digitChar k).isDigit = true := by
  revert k h
  decide

theorem digitVal_digitChar {k : Nat} (h : k < 10) : digitVal (digitChar k) = k := by
  revert k h
  decide

theorem parse_format_roundtrip (dt : Date) (h : validDate dt) :
    parseMMDDYYYY (formatDate dt) = some dt := by
  obtain ⟨h1, h2, h3, h4, h5⟩ := h
  have hm1 : dt.month / 10 % 10 < 10 := Nat.mod_lt _ (by omega)
  have hm2 : dt.month % 10 < 10 := Nat.mod_lt _ (by omega)
  have hd1 : dt.day / 10 % 10 < 10 := Nat.mod_lt _ (by omega)
  have hd2 : dt.day % 10 < 10 := Nat.mod_lt _ (by omega)
  have hy1 : dt.year / 1000 % 10 < 10 := Nat.mod_lt _ (by omega)
  have hy2 : dt.year / 100 % 10 < 10 := Nat.mod_lt _ (by omega)
  have hy3 : dt.year / 10 % 10 < 10 := Nat.mod_lt _ (by omega)
  have hy4 : dt.year % 10 < 10 := Nat.mod_lt _ (by omega)
  have hmonth : dt.month < 100 := by omega
  have hday : dt.day < 100 := by
    have : daysInMonth dt.year dt.month ≤ 31 := by
      unfold daysInMonth monthLengths
      rcases isLeap dt.year with _ | _ <;>
        · interval_cases dt.month <;> simp [List.getD]
    omega
  unfold formatDate parseMMDDYYYY
  simp only [digitChar_isDigit hm1, digitChar_isDigit hm2, digitChar_isDigit hd1,
    digitChar_isDigit hd2, digitChar_isDigit hy1, digitChar_isDigit hy2,
    digitChar_isDigit hy3, digitChar_isDigit hy4, Bool.and_self, if_true,
    digitVal_digitChar hm1, digitVal_digitChar hm2, digitVal_digitChar hd1,
    digitVal_digitChar hd2, digitVal_digitChar hy1, digitVal_digitChar hy2,
    digitVal_digitChar hy3, digitVal_digitChar hy4]
  have em : dt.month / 10 % 10 * 10 + dt.month % 10 = dt.month := by omega
  have ed : dt.day / 10 % 10 * 10 + dt.day % 10 = dt.day := by omega
  have ey : dt.year / 1000 % 10 * 1000 + dt.year / 100 % 10 * 100
      + dt.year / 10 % 10 * 10 + dt.year % 10 = dt.year := by omega
  simp only [em, ed, ey]
  rw [if_pos ⟨h1, h2, h3, h4⟩]

/-! ### Correctness of the ordinal-day walk -/

theorem splitOrdinal_of_le_sum (lens : List Nat) :
    ∀ d, 1 ≤ d → d ≤ lens.sum →
      ∃ m dd, splitOrdinal lens d = some (m, dd) ∧ 1 ≤ m ∧ m ≤ lens.length
        ∧ 1 ≤ dd ∧ dd ≤ lens.getD (m - 1) 0 ∧ ((lens.take (m - 1)).sum + dd = d) := by
  induction lens with
  | nil =>
    intro d h1 h2
    simp at h2
    omega
  | cons len rest ih =>
    intro d h1 h2
    by_cases hle : d ≤ len
    · refine ⟨1, d, ?_, by omega, by simp, h1, ?_, ?_⟩
      · simp [splitOrdinal, hle]
      · simpa [List.getD] using hle
      · simp
    · have hsum : d - len ≤ rest.sum := by
        simp [List.sum_cons] at h2
        omega
      obtain ⟨m, dd, hsplit, hm1, hmlen, hdd1, hddle, hsumeq⟩ :=
        ih (d - len) (by omega) hsum
      obtain ⟨k, rfl⟩ : ∃ k, m = k + 1 := ⟨m - 1, by omega⟩
      refine ⟨k + 2, dd, ?_, by omega, by simp; omega, hdd1, ?_, ?_⟩
      · simp [splitOrdinal, hle, hsplit]
      · simpa using hddle
      · simp only [Nat.add_sub_cancel] at hsumeq ⊢
        simp [List.take_succ_cons, List.sum_cons]
        omega

theorem splitOrdinal_of_gt_sum (lens : List Nat) :
    ∀ d, lens.sum < d → splitOrdinal lens d = none := by
  induction lens with
  | nil => intro d _; rfl
  | cons len rest ih =>
    intro d hd
    simp [List.sum_cons] at hd
    have hle : ¬ d ≤ len := by omega
    simp [splitOrdinal, hle, ih (d - len) (by omega)]

theorem monthLengths_sum (y : Nat) : (monthLengths y).sum = daysInYear y := by
  unfold monthLengths daysInYear
  rcases isLeap y with _ | _ <;> simp

theorem monthLengths_length (y : Nat) : (monthLengths y).length = 12 := by
  unfold monthLengths
  rcases isLeap y with _ | _ <;> simp

theorem daysInYear_pos (y : Nat) : 1 ≤ daysInYear y := by
  unfold daysInYear
  split <;> omega

/-- In-range ordinal days yield a valid date of the same year whose
day-of-year is the input: the ordinal-day convention, leap years included. -/
theorem julianToDate_roundtrip (y doy : Nat) (h1 : 1 ≤ doy) (h2 : doy ≤ daysInYear y) :
    ∃ dt, julianToDate y doy = some dt ∧ dt.year = y ∧ dayOfYearOf dt = doy
      ∧ 1 ≤ dt.month ∧ dt.month ≤ 12 ∧ 1 ≤ dt.day ∧ dt.day ≤ daysInMonth y dt.month := by
  obtain ⟨m, dd, hsplit, hm1, hmlen, hdd1, hddle, hsumeq⟩ :=
    splitOrdinal_of_le_sum (monthLengths y) doy h1 (by rw [monthLengths_sum]; exact h2)
  rw [monthLengths_length] at hmlen
  refine ⟨⟨y, m, dd⟩, ?_, rfl, ?_, hm1, hmlen, hdd1, hddle⟩
  · unfold julianToDate
    rw [if_pos h2, hsplit]
    rfl
  · unfold dayOfYearOf
    exact hsumeq

/-- Day `daysInYear y + 1` (day 366 of a common year) rolls over to
January 1 of the following year rather than failing. -/
theorem julianToDate_rollover (y : Nat) :
    julianToDate y (daysInYear y + 1) = some ⟨y + 1, 1, 1⟩ := by
  unfold julianToDate
  rw [if_neg (by omega), Nat.add_sub_cancel_left]
  simp [monthLengths, splitOrdinal]

/-! ## The record parser (`read_txt_from_url`)

`pd.read_csv(data, delim_whitespace=True, header=None, names=column_names)`
with the ten column names
`YYYY, DDD, X, isWithinTolerance, X(m), Y(m), Z(m), sigmaX(m), sigmaY(m),
sigmaZ(m)`: every non-blank line is split on whitespace.  The C tokenizer
takes the first line's field count as the table width and raises
(`Expected N fields in line i, saw M`) on any later line with more fields
than that; a line with fewer fields is padded with trailing missing values
(NaN).  If the resulting table width is smaller than the ten passed names,
the whole read fails (`Too many columns specified: expected 10 and found
N`); if it is larger, the surplus leading columns become the implicit index
and the last ten columns carry the names.  Afterwards
`to_datetime(YYYY.astype(str) + DDD.astype(str), format='%Y%j')` builds the
`Date` column, raising `ValueError` on any row whose year/day-of-year pair
the `%Y%j` format rejects, and the `YYYY`/`DDD` columns are dropped. -/

/-- Errors raised while building the table: `pandas.errors.ParserError`
from `read_csv` — either a row with more fields than the table width
(`tooManyFields`, with the 0-based offending row) or passed names
outnumbering every row's fields (`namesExceedColumns`, with the found
width) — and `ValueError` from `to_datetime` (`invalidDate`, with the
0-based row).  None of these is caught by `read_txt_from_url`, whose
`except` clause only handles `requests` exceptions. -/
inductive ParseError where
  | tooManyFields : Nat → ParseError
  | namesExceedColumns : Nat → ParseError
  | invalidDate : Nat → ParseError
deriving DecidableEq, Repr

/-- Character-level splitter on whitespace runs (`acc` holds the current
token reversed). -/
def splitWSAux : List Char → List Char → List String
  | [], acc => if acc.isEmpty then [] else [String.mk acc.reverse]
  | c :: cs, acc =>
    if c.isWhitespace then
      if acc.isEmpty then splitWSAux cs []
      else String.mk acc.reverse :: splitWSAux cs []
    else splitWSAux cs (c :: acc)

/-- `delim_whitespace=True` tokenization of one line: maximal nonempty runs
of non-whitespace characters. -/
def tokenize (line : String) : List String := splitWSAux line.data []

/-- Split the fetched text into lines at newline characters. -/
def linesAux : List Char → List Char → List String
  | [], acc => [String.mk acc.reverse]
  | c :: cs, acc =>
    if c = '\n' then String.mk acc.reverse :: linesAux cs []
    else linesAux cs (c :: acc)

/-- The lines of the fetched text. -/
def linesOf (text : String) : List String := linesAux text.data []

/-- A row padded with trailing `none` cells (pandas `NaN`) to width `w`. -/
def padToWidth (w : Nat) (toks : List String) : List (Option String) :=
  (List.range w).map (fun k => toks[k]?)

/-- `read_csv` on the tokenized non-blank lines: table width from the first
line, error on any wider line, short lines NaN-padded; a width below the
ten names is a whole-read error, a larger width sends the surplus leading
columns to the implicit index, leaving the last ten columns named.
(`read_csv` of an empty file raises `EmptyDataError`, modelled by the
width-0 error.) -/
def readTable (lineToks : List (List String)) :
    Except ParseError (List (List (Option String))) :=
  match lineToks.enum.find? (fun p => (lineToks.headD []).length < p.2.length) with
  | some p => .error (.tooManyFields p.1)
  | none =>
    if (lineToks.headD []).length < 10 then
      .error (.namesExceedColumns (lineToks.headD []).length)
    else
      .ok (lineToks.map (fun toks =>
        (padToWidth (lineToks.headD []).length toks).drop
          ((lineToks.headD []).length - 10)))

/-- Fold a token's characters into the integer `read_csv` stores for an
all-digit field. -/
def natOfChars (cs : List Char) : Nat :=
  cs.foldl (fun a c => a * 10 + (c.toNat - 48)) 0

/-- A nonempty all-digit token (the shape `read_csv` parses as `int64`). -/
def allDigits (cs : List Char) : Bool :=
  !cs.isEmpty && cs.all Char.isDigit

/-- `pd.to_datetime(str(year) + str(doy), format='%Y%j')` for the four-digit
years of the data: `%Y` consumes four digits and the `%j` pattern matches
exactly the numerals 1..366 (written without leading zeros after
`astype(str)`), so the concatenation splits back into the original pair;
a day-of-year of 0 or above 366 leaves the format unmatched (no match or
unconverted trailing digits) and raises `ValueError`, while matched values
go through strptime's julian arithmetic including its year rollover.  (For
years outside 1000..9999 the strptime re-split would group the digits
differently; the data model only covers the four-digit years the feed
carries, and maps the rest to an error.) -/
def toDatetimeYJ (y doy : Nat) : Option Date :=
  if 1000 ≤ y ∧ y ≤ 9999 ∧ 1 ≤ doy ∧ doy ≤ 366 then julianToDate y doy else none

/-- The `Date` value of a row, from its `YYYY` and `DDD` cells. -/
def dateOfTokens (yc dc : Option String) : Option Date :=
  match yc, dc with
  | some yt, some dt =>
    if allDigits yt.data && allDigits dt.data then
      toDatetimeYJ (natOfChars yt.data) (natOfChars dt.data)
    else none
  | _, _ => none

/-- `to_datetime` applied to the first two cells of a padded row. -/
def makeDate (idx : Nat) (cells : List (Option String)) : Except ParseError Date :=
  match dateOfTokens (cells.getD 0 none) (cells.getD 1 none) with
  | some d => .ok d
  | none => .error (.invalidDate idx)

/-- Decimal numeral parsing for the float cells (optional sign, integer and
fraction digit groups).  `read_csv` stores such tokens as floats; we model
them as exact rationals. -/
def parseDec (s : String) : Option ℚ :=
  let signed : ℚ × List Char :=
    match s.data with
    | '-' :: rest => (-1, rest)
    | '+' :: rest => (1, rest)
    | rest => (1, rest)
  match signed.2.splitOn '.' with
  | [ip] =>
    if allDigits ip then some (signed.1 * (natOfChars ip : ℚ)) else none
  | [ip, fp] =>
    if !(ip.isEmpty && fp.isEmpty) && ip.all Char.isDigit && fp.all Char.isDigit then
      some (signed.1 * ((natOfChars ip : ℚ) + (natOfChars fp : ℚ) / (10 : ℚ) ^ fp.length))
    else none
  | _ => none

/-- One row of the DataFrame `read_txt_from_url` returns, after the
`YYYY`/`DDD` columns are replaced by the formatted `Date` column and the
columns are reordered (`Date` first). -/
structure DfRow where
  date : String
  refFlag : Option String
  isWithinTolerance : Option String
  xM : Option ℚ
  yM : Option ℚ
  zM : Option ℚ
  sigmaX : Option ℚ
  sigmaY : Option ℚ
  sigmaZ : Option ℚ
deriving DecidableEq, Repr

/-- Numeric value of a cell (`none` both for a missing cell and for a token
that is not a plain decimal numeral). -/
def numCell (c : Option String) : Option ℚ := c.bind parseDec

/-- Assemble a `DfRow` from a padded row and its computed date. -/
def makeDfRow (d : Date) (cells : List (Option String)) : DfRow :=
  { date := formatDate d
    refFlag := cells.getD 2 none
    isWithinTolerance := cells.getD 3 none
    xM := numCell (cells.getD 4 none)
    yM := numCell (cells.getD 5 none)
    zM := numCell (cells.getD 6 none)
    sigmaX := numCell (cells.getD 7 none)
    sigmaY := numCell (cells.getD 8 none)
    sigmaZ := numCell (cells.getD 9 none) }

/-- The parsing stage of `read_txt_from_url` on the fetched text:
`read_csv` over all lines first (pass 1), then the `Date` column (pass 2). -/
def parseText (text : String) : Except ParseError (List DfRow) := do
  let lineToks := ((linesOf text).map tokenize).filter (fun t => !t.isEmpty)
  let grid ← readTable lineToks
  grid.enum.mapM (fun p => (makeDate p.1 p.2).map (fun d => makeDfRow d p.2))

/-- `requests.get` outcomes: a body on success, a
`requests.exceptions.RequestException` otherwise (non-2xx status via
`raise_for_status`, connection failures, timeouts). -/
inductive RequestError where
  | requestException : RequestError
deriving DecidableEq, Repr

/-- `read_txt_from_url`: on a request exception the handler shows an error
message and returns `None`; on success the body is parsed, and parse errors
propagate (they are not caught). -/
def read_txt_from_url (resp : Except RequestError String) :
    Except ParseError (Option (List DfRow)) :=
  match resp with
  | .error _ => .ok none
  | .ok body => (parseText body).map (fun rows => some rows)

/-! ## The Show Data handler (date filter)

`st.session_state.data[pd.to_datetime(st.session_state.data['Date']) >=
pd.to_datetime(start_date)]` followed by `.head(rows_to_show)`. -/

/-- The row predicate of the filter: the row's stored `Date` string,
re-parsed by `to_datetime`, is on or after the selected start date.  (Every
string the pipeline stores is `strftime` output and therefore parses.) -/
def dateGE (s : String) (start : Date) : Bool :=
  match parseMMDDYYYY s with
  | some d => decide (dateKey start ≤ dateKey d)
  | none => false

/-- The Show Data handler's filtering: boolean-mask selection (which keeps
the original row order) and `.head limit`. -/
def showData (data : List DfRow) (start : Date) (limit : Nat) : List DfRow :=
  (data.filter (fun r => dateGE r.date start)).take limit

/-- The spec's description of the filter, written as its own recursion:
walk the records in order, keep those with `date >= startDate`, and stop
after `limit` records have been kept. -/
def selectSpec : List DfRow → Date → Nat → List DfRow
  | [], _, _ => []
  | r :: rs, start, limit =>
    if limit = 0 then []
    else if dateGE r.date start then r :: selectSpec rs start (limit - 1)
    else selectSpec rs start limit

theorem selectSpec_eq_showData (rows : List DfRow) :
    ∀ start limit, selectSpec rows start limit = showData rows start limit := by
  induction rows with
  | nil => intro start limit; simp [selectSpec, showData]
  | cons r rs ih =>
    intro start limit
    unfold selectSpec showData
    rcases limit with _ | n
    · simp
    · by_cases hr : dateGE r.date start
      · simp only [Nat.succ_ne_zero, if_false, hr, if_true, List.filter_cons_of_pos,
          List.take_succ_cons, Nat.add_sub_cancel]
        rw [ih start n]
        rfl
      · simp only [Nat.succ_ne_zero, if_false, hr, List.filter_cons_of_neg,
          Bool.false_eq_true, not_false_iff]
        rw [ih start (n + 1)]
        rfl

/-! ## The Convert handler

Iterates over the filtered rows, converting each ECEF triple with
`convert_xyz_to_lat_lon_height` and the sigmas with `convert_uncertainties`,
and rebuilds a table whose `Date` column is the filtered table's `Date`
column. -/

/-- `convert_uncertainties(sigma_x, sigma_y, sigma_z)`: returns its inputs
unchanged (the Python function body is `return sigma_x, sigma_y, sigma_z`). -/
def convert_uncertainties {α : Type} (sigma_x sigma_y sigma_z : α) : α × α × α :=
  (sigma_x, sigma_y, sigma_z)

/-! ## The geodetic conversion (`convert_xyz_to_lat_lon_height`) -/

noncomputable section

/-- WGS84 semi-major axis in meters. -/
def wgs84_a : ℝ := 6378137

/-- WGS84 flattening. -/
def wgs84_f : ℝ := 1 / 298.257223563

/-- WGS84 semi-minor axis. -/
def wgs84_b : ℝ := wgs84_a * (1 - wgs84_f)

/-- First eccentricity squared. -/
def wgs84_e2 : ℝ := wgs84_f * (2 - wgs84_f)

/-- Second eccentricity squared. -/
def wgs84_ep2 : ℝ := wgs84_e2 / (1 - wgs84_e2)

/-- Two-argument arctangent with the C/`atan2` quadrant conventions; total,
in particular defined at `x = 0` (and `atan2 0 0 = 0`). -/
def atan2 (y x : ℝ) : ℝ :=
  if 0 < x then Real.arctan (y / x)
  else if x < 0 then
    (if 0 ≤ y then Real.arctan (y / x) + Real.pi else Real.arctan (y / x) - Real.pi)
  else
    (if 0 < y then Real.pi / 2 else if y < 0 then -(Real.pi / 2) else 0)

/-- Distance from the Earth's axis. -/
def ecefP (x y : ℝ) : ℝ := Real.sqrt (x ^ 2 + y ^ 2)

/-- Bowring's parametric latitude. -/
def bowringTheta (x y z : ℝ) : ℝ := atan2 (z * wgs84_a) (ecefP x y * wgs84_b)

/-- Geodetic latitude in radians, by Bowring's closed form. -/
def geoLat (x y z : ℝ) : ℝ :=
  atan2 (z + wgs84_ep2 * wgs84_b * Real.sin (bowringTheta x y z) ^ 3)
    (ecefP x y - wgs84_e2 * wgs84_a * Real.cos (bowringTheta x y z) ^ 3)

/-- Ellipsoidal height, in the polar-safe form
`h = p cos φ + z sin φ - a √(1 - e² sin² φ)`. -/
def geoHeight (x y z : ℝ) : ℝ :=
  ecefP x y * Real.cos (geoLat x y z) + z * Real.sin (geoLat x y z)
    - wgs84_a * Real.sqrt (1 - wgs84_e2 * Real.sin (geoLat x y z) ^ 2)

/-- Modelled from the spec: the Python function delegates the EPSG:4978 →
EPSG:4326 transformation to the external `pyproj`/PROJ native library, whose
source is not part of this repository.  Following §4.3 of the spec it is
modelled as a standard closed-form ellipsoidal conversion (Bowring's method)
on the WGS84 defining constants `a = 6378137`, `f = 1/298.257223563`, with
`longitude = atan2(y, x)` and results in degrees, over the real numbers. -/
def convert_xyz_to_lat_lon_height (x y z : ℝ) : ℝ × ℝ × ℝ :=
  (geoLat x y z * 180 / Real.pi, atan2 y x * 180 / Real.pi, geoHeight x y z)

/-- One row of the table the Convert handler builds.  A float computation on
a missing (NaN) cell yields NaN; missing results are modelled as `none`. -/
structure ConvRow where
  date : String
  latitude : Option ℝ
  longitude : Option ℝ
  height : Option ℝ
  sigmaLat : Option ℚ
  sigmaLon : Option ℚ
  sigmaHeight : Option ℚ

/-- The per-row body of the Convert handler's loop. -/
def convertRow (r : DfRow) : ConvRow :=
  let xyz : Option (ℝ × ℝ × ℝ) :=
    match r.xM, r.yM, r.zM with
    | some x, some y, some z => some (convert_xyz_to_lat_lon_height x y z)
    | _, _, _ => none
  let s := convert_uncertainties r.sigmaX r.sigmaY r.sigmaZ
  { date := r.date
    latitude := xyz.map (fun t => t.1)
    longitude := xyz.map (fun t => t.2.1)
    height := xyz.map (fun t => t.2.2)
    sigmaLat := s.1
    sigmaLon := s.2.1
    sigmaHeight := s.2.2 }

/-- The Convert handler: one converted row per filtered row, in order; the
new table's `Date` column is the filtered table's `Date` column. -/
def convertHandler (data : List DfRow) : List ConvRow := data.map convertRow

end

/-! ## Session state and the Fetch Data handler -/

/-- The `st.session_state` fields the pipeline uses. -/
structure SessionState where
  data : Option (List DfRow)
  show_date_filter : Bool
  filtered_data : Option (List DfRow)
deriving Repr

/-- The Fetch Data button handler, given the value `read_txt_from_url`
returned: stores the table and reveals the date filter on success, and on
failure (`None`) only hides the date filter. -/
def fetchDataHandler (s : SessionState) (fetched : Option (List DfRow)) : SessionState :=
  match fetched with
  | some d => { s with data := some d, show_date_filter := true }
  | none => { s with show_date_filter := false }

/-! ## The date-filter UI gate -/

/-- Smallest date of a list under the chronological key (`available_dates.min()`). -/
def minD : List Date → Option Date
  | [] => none
  | d :: ds =>
    match minD ds with
    | none => some d
    | some m => if dateKey d ≤ dateKey m then some d else some m

/-- Largest date of a list under the chronological key (`available_dates.max()`). -/
def maxD : List Date → Option Date
  | [] => none
  | d :: ds =>
    match maxD ds with
    | none => some d
    | some m => if dateKey m ≤ dateKey d then some d else some m

/-- `pd.to_datetime(st.session_state.data['Date'])`: the parsed dates of the
stored rows. -/
def availableDates (data : List DfRow) : List Date :=
  data.filterMap (fun r => parseMMDDYYYY r.date)

/-- `st.date_input(..., min_value=min_date, max_value=max_date)`: the widget
only ever yields a date within its bounds (Streamlit refuses out-of-range
values), modelled by returning `none` outside them. -/
def date_input (lo hi choice : Date) : Option Date :=
  if dateKey lo ≤ dateKey choice ∧ dateKey choice ≤ dateKey hi then some choice else none

/-- The date-filter section of the UI: compute the available date range of
the fetched table and offer a start-date choice bounded by it.  Its result
is the only `start_date` the Show Data handler is ever invoked with. -/
def dateFilterUI (data : List DfRow) (choice : Date) : Option Date :=
  match minD (availableDates data), maxD (availableDates data) with
  | some lo, some hi => date_input lo hi choice
  | _, _ => none

theorem snd_mem_of_mem_enum {α : Type} {l : List α} {p : Nat × α}
    (h : p ∈ l.enum) : p.2 ∈ l := by
  rcases p with ⟨i, x⟩
  rw [List.mk_mem_enum_iff_getElem?] at h
  exact List.getElem?_mem h

/-! ## Claim theorems -/

/-- A bare row dated January `d`, 2024, with every other cell missing; used
as concrete test data for the filter claims. -/
def janRow (d : Nat) : DfRow :=
  ⟨formatDate ⟨2024, 1, d⟩, none, none, none, none, none, none, none, none⟩

/-- C1: for every input triple, `convert_uncertainties` returns exactly that
triple unchanged — the uncertainty conversion is the identity function. -/
theorem claim1_uncertainty_pass_through :
    ∀ sigmaX sigmaY sigmaZ : ℚ,
      (convert_uncertainties sigmaX sigmaY sigmaZ).1 = sigmaX
      ∧ (convert_uncertainties sigmaX sigmaY sigmaZ).2.1 = sigmaY
      ∧ (convert_uncertainties sigmaX sigmaY sigmaZ).2.2 = sigmaZ :=
  fun _ _ _ => ⟨rfl, rfl, rfl⟩

/-- C2: the Show Data filter returns exactly the records whose date is on or
after the start date, in the original order, truncated to the first `limit`
of them (stated as equality with the spec's own recursion `selectSpec`); in
particular on rows dated Jan 1–3 with start Jan 2 it yields [Jan 2, Jan 3]
for `limit = 10` and [Jan 2] for `limit = 1`. -/
theorem claim2_range_select :
    (∀ (rows : List DfRow) (start : Date) (limit : Nat),
      showData rows start limit = selectSpec rows start limit)
    ∧ showData [janRow 1, janRow 2, janRow 3] ⟨2024, 1, 2⟩ 10 = [janRow 2, janRow 3]
    ∧ showData [janRow 1, janRow 2, janRow 3] ⟨2024, 1, 2⟩ 1 = [janRow 2] :=
  ⟨fun rows start limit => (selectSpec_eq_showData rows start limit).symm,
   by decide, by decide⟩

/-- C3 counterexample: in a fetch whose first line carries the full ten
fields, a later line with 8 instead of 9 whitespace-separated fields is not
reported as a parse error — `read_csv` pads that row with missing values
and the whole parse succeeds (the reader in the code in fact expects ten
columns, not nine). -/
theorem claim3_short_line_accepted_cex :
    (tokenize "2024 61 X T 1.0 2.0 3.0 0.5").length = 8
    ∧ parseText "2024 60 X T 1.0 2.0 3.0 0.5 0.6 0.7\n2024 61 X T 1.0 2.0 3.0 0.5" =
        .ok [⟨"02/29/2024", some "X", some "T", some 1, some 2, some 3,
              some (1/2), some (3/5), some (7/10)⟩,
             ⟨"03/01/2024", some "X", some "T", some 1, some 2, some 3,
              some (1/2), none, none⟩] :=
  ⟨by decide, by with_unfolding_all rfl⟩

/-- C3 amended: the reader expects ten columns, not nine, and field-count
failures are whole-table, not per-line `MalformedRecord` reports: when the
width of a non-empty fetch (its first line's field count, which no line may
exceed) stays below ten, the entire read fails with a `ParserError`
reporting the found width (so a lone 8-field line errors rather than being
flagged individually); but when the first line attains the full ten
fields and no line exceeds it, every shorter line is silently accepted,
its missing trailing fields becoming missing values. -/
theorem claim3_field_count_amended :
    (∀ lineToks : List (List String), lineToks ≠ [] →
      (∀ t ∈ lineToks, t.length ≤ (lineToks.headD []).length) →
      (lineToks.headD []).length < 10 →
      readTable lineToks = .error (.namesExceedColumns (lineToks.headD []).length))
    ∧ (∀ lineToks : List (List String),
        (lineToks.headD []).length = 10 →
        (∀ t ∈ lineToks, t.length ≤ 10) →
        readTable lineToks = .ok (lineToks.map (padToWidth 10))
          ∧ ∀ toks ∈ lineToks, (padToWidth 10 toks).length = 10
            ∧ ∀ k, k < 10 → (padToWidth 10 toks)[k]? = some toks[k]?)
    ∧ parseText "2024 60 X T 1.0 2.0 3.0 0.5" = .error (.namesExceedColumns 8) := by
  refine ⟨?_, ?_, by rfl⟩
  · intro lineToks _ hall hlt
    have hfind : lineToks.enum.find?
        (fun p => decide ((lineToks.headD []).length < p.2.length)) = none := by
      rw [List.find?_eq_none]
      intro p hp
      simp only [decide_eq_true_eq, not_lt]
      exact hall p.2 (snd_mem_of_mem_enum hp)
    unfold readTable
    rw [hfind]
    dsimp only
    rw [if_pos hlt]
  · intro lineToks h10 hall
    have hfind : lineToks.enum.find?
        (fun p => decide ((lineToks.headD []).length < p.2.length)) = none := by
      rw [List.find?_eq_none]
      intro p hp
      simp only [decide_eq_true_eq, not_lt, h10]
      exact hall p.2 (snd_mem_of_mem_enum hp)
    constructor
    · unfold readTable
      rw [hfind]
      dsimp only
      rw [h10, if_neg (by omega)]
      norm_num [List.drop_zero]
    · intro toks _
      refine ⟨by simp [padToWidth], ?_⟩
      intro k hk
      simp [padToWidth, List.getElem?_range, hk]

/-- Witness for the C3 amended theorem at the concrete two-line fetch whose
second line has only eight fields. -/
theorem claim3_field_count_amended_witness :
    readTable [tokenize "2024 60 X T 1.0 2.0 3.0 0.5 0.6 0.7",
               tokenize "2024 61 X T 1.0 2.0 3.0 0.5"]
      = .ok ([tokenize "2024 60 X T 1.0 2.0 3.0 0.5 0.6 0.7",
              tokenize "2024 61 X T 1.0 2.0 3.0 0.5"].map (padToWidth 10)) :=
  (claim3_field_count_amended.2.1
    [tokenize "2024 60 X T 1.0 2.0 3.0 0.5 0.6 0.7",
     tokenize "2024 61 X T 1.0 2.0 3.0 0.5"] (by decide) (by decide)).1

/-- C4 counterexample: day-of-year 60 of (leap year) 2024 is February 29,
2024, not March 1, 2024 as the claim states. -/
theorem claim4_march1_cex :
    toDatetimeYJ 2024 60 = some ⟨2024, 2, 29⟩
    ∧ toDatetimeYJ 2024 60 ≠ some ⟨2024, 3, 1⟩ := by
  constructor <;> decide

/-- C4 amended: year and day-of-year combine by strptime's ordinal-day
arithmetic — day 1 is January 1 and in-range days round-trip through the
day-of-year of the resulting date, leap years accounted for; for year 2024,
day 60 the result is February 29, 2024 (it is March 1 only in common years
such as 2023).  A day-of-year of 0 or above 366 fails the `%Y%j` format
with a date parse error, but day 366 of a common year is not an error:
strptime's julian arithmetic silently rolls it over to January 1 of the
following year. -/
theorem claim4_ordinal_amended :
    (∀ y, julianToDate y 1 = some ⟨y, 1, 1⟩)
    ∧ (∀ y doy, 1 ≤ doy → doy ≤ daysInYear y →
        ∃ dt, julianToDate y doy = some dt ∧ dt.year = y ∧ dayOfYearOf dt = doy)
    ∧ (∀ y, daysInYear y = 365 → julianToDate y 366 = some ⟨y + 1, 1, 1⟩)
    ∧ (∀ y doy, doy = 0 ∨ 366 < doy → toDatetimeYJ y doy = none)
    ∧ (∀ idx cells, dateOfTokens (cells.getD 0 none) (cells.getD 1 none) = none →
        makeDate idx cells = .error (.invalidDate idx))
    ∧ toDatetimeYJ 2024 60 = some ⟨2024, 2, 29⟩
    ∧ toDatetimeYJ 2023 60 = some ⟨2023, 3, 1⟩
    ∧ toDatetimeYJ 2023 366 = some ⟨2024, 1, 1⟩
    ∧ parseText "2023 367 X T 1.0 2.0 3.0 0.5 0.6 0.7"
        = .error (.invalidDate 0) := by
  refine ⟨?_, ?_, ?_, ?_, ?_, by decide, by decide, by decide, by rfl⟩
  · intro y
    unfold julianToDate
    rw [if_pos (daysInYear_pos y)]
    simp [monthLengths, splitOrdinal]
  · intro y doy h1 h2
    obtain ⟨dt, hdt, hy, hdoy, _⟩ := julianToDate_roundtrip y doy h1 h2
    exact ⟨dt, hdt, hy, hdoy⟩
  · intro y h
    have hroll := julianToDate_rollover y
    rw [h] at hroll
    exact hroll
  · intro y doy h
    unfold toDatetimeYJ
    rw [if_neg (by omega)]
  · intro idx cells h
    unfold makeDate
    rw [h]

/-- Witness for the C4 amended theorem at year 2023, day-of-year 60. -/
theorem claim4_ordinal_amended_witness :
    ∃ dt, julianToDate 2023 60 = some dt ∧ dt.year = 2023 ∧ dayOfYearOf dt = 60 :=
  claim4_ordinal_amended.2.1 2023 60 (by decide) (by decide)

/-- C5: the filter and converter never fail on edge cases — filtering an
empty table yields an empty table, a start date strictly after every record
date yields an empty table, and converting an empty table yields an empty
table. -/
theorem claim5_edge_cases :
    (∀ start limit, showData [] start limit = [])
    ∧ (∀ rows start limit,
        (∀ r ∈ rows, ∀ dt, parseMMDDYYYY r.date = some dt → dateKey dt < dateKey start) →
        showData rows start limit = [])
    ∧ convertHandler [] = [] := by
  refine ⟨fun start limit => by simp [showData], ?_, rfl⟩
  intro rows start limit h
  unfold showData
  have hfil : rows.filter (fun r => dateGE r.date start) = [] := by
    rw [List.filter_eq_nil_iff]
    intro r hr
    unfold dateGE
    cases hp : parseMMDDYYYY r.date with
    | none => simp
    | some dt =>
      simp only [decide_eq_true_eq]
      exact fun hle => absurd (h r hr dt hp) (by omega)
  rw [hfil, List.take_nil]

/-- Witness for C5 at a concrete one-row table whose date precedes the
start date. -/
theorem claim5_edge_cases_witness :
    showData [janRow 1] ⟨2024, 2, 1⟩ 10 = [] := by
  refine claim5_edge_cases.2.1 [janRow 1] ⟨2024, 2, 1⟩ 10 ?_
  intro r hr dt hdt
  rw [List.mem_singleton] at hr
  subst hr
  rw [show parseMMDDYYYY (janRow 1).date = some ⟨2024, 1, 1⟩ from by decide] at hdt
  cases hdt
  decide

/-- C6: the Convert handler produces exactly one converted row per filtered
row, carrying each row's date over unchanged (and passing the sigma columns
through as `convert_uncertainties` returns them). -/
theorem claim6_convert_frame :
    ∀ data : List DfRow,
      (convertHandler data).length = data.length
      ∧ (convertHandler data).map (fun r => r.date) = data.map (fun r => r.date)
      ∧ (convertHandler data).map (fun r => r.sigmaLat) = data.map (fun r => r.sigmaX)
      ∧ (convertHandler data).map (fun r => r.sigmaLon) = data.map (fun r => r.sigmaY)
      ∧ (convertHandler data).map (fun r => r.sigmaHeight) = data.map (fun r => r.sigmaZ) := by
  intro data
  refine ⟨?_, ?_, ?_, ?_, ?_⟩ <;>
    simp [convertHandler, convertRow, convert_uncertainties, List.map_map, Function.comp]

/-- C8: on any request failure `read_txt_from_url` returns `None` rather
than raising, and the Fetch Data handler then leaves the previously stored
table (and the previously filtered table) untouched, only clearing the
`show_date_filter` flag. -/
theorem claim8_fetch_failure :
    ∀ (e : RequestError) (s : SessionState),
      read_txt_from_url (.error e) = .ok none
      ∧ (fetchDataHandler s none).data = s.data
      ∧ (fetchDataHandler s none).show_date_filter = false
      ∧ (fetchDataHandler s none).filtered_data = s.filtered_data :=
  fun _ _ => ⟨rfl, rfl, rfl, rfl⟩

/-- C9: the filter compares re-parsed dates, so for every stored
`MM/DD/YYYY` string the comparison agrees with chronological order on the
underlying dates; at the year boundary this differs from comparing the
strings themselves — "01/01/2024" precedes "12/31/2023" lexicographically,
yet the filter correctly excludes 12/31/2023 for start date 01/01/2024 and
includes 01/01/2024 for start date 12/31/2023. -/
theorem claim9_chronological_compare :
    (∀ (start dt : Date), validDate dt →
      dateGE (formatDate dt) start = decide (dateKey start ≤ dateKey dt))
    ∧ lexLt "01/01/2024".data "12/31/2023".data = true
    ∧ dateGE "12/31/2023" ⟨2024, 1, 1⟩ = false
    ∧ dateGE "01/01/2024" ⟨2023, 12, 31⟩ = true := by
  refine ⟨?_, by decide, by decide, by decide⟩
  intro start dt h
  unfold dateGE
  rw [parse_format_roundtrip dt h]

/-- Witness for C9 across the 2023/2024 year boundary. -/
theorem claim9_chronological_compare_witness :
    dateGE (formatDate ⟨2024, 1, 1⟩) ⟨2023, 12, 31⟩
      = decide (dateKey ⟨2023, 12, 31⟩ ≤ dateKey ⟨2024, 1, 1⟩) :=
  claim9_chronological_compare.1 ⟨2023, 12, 31⟩ ⟨2024, 1, 1⟩ (by decide)

theorem minD_eq_none {l : List Date} (h : minD l = none) : l = [] := by
  cases l with
  | nil => rfl
  | cons d ds =>
    exfalso
    unfold minD at h
    cases hds : minD ds <;> rw [hds] at h <;> dsimp only at h
    · exact Option.noConfusion h
    · split at h <;> exact Option.noConfusion h

theorem minD_spec (l : List Date) :
    ∀ m, minD l = some m → m ∈ l ∧ ∀ d ∈ l, dateKey m ≤ dateKey d := by
  induction l with
  | nil => intro m h; cases h
  | cons d ds ih =>
    intro m h
    unfold minD at h
    cases hds : minD ds with
    | none =>
      rw [hds] at h
      dsimp only at h
      cases h
      rw [minD_eq_none hds]
      exact ⟨List.mem_singleton_self d, by simp⟩
    | some m' =>
      rw [hds] at h
      dsimp only at h
      obtain ⟨hmem, hall⟩ := ih m' hds
      by_cases hle : dateKey d ≤ dateKey m'
      · rw [if_pos hle] at h
        cases h
        refine ⟨List.mem_cons_self d ds, ?_⟩
        intro x hx
        rcases List.mem_cons.mp hx with rfl | hx
        · exact le_refl _
        · exact le_trans hle (hall x hx)
      · rw [if_neg hle] at h
        cases h
        refine ⟨List.mem_cons_of_mem d hmem, ?_⟩
        intro x hx
        rcases List.mem_cons.mp hx with rfl | hx
        · omega
        · exact hall x hx

theorem maxD_eq_none {l : List Date} (h : maxD l = none) : l = [] := by
  cases l with
  | nil => rfl
  | cons d ds =>
    exfalso
    unfold maxD at h
    cases hds : maxD ds <;> rw [hds] at h <;> dsimp only at h
    · exact Option.noConfusion h
    · split at h <;> exact Option.noConfusion h

theorem maxD_spec (l : List Date) :
    ∀ m, maxD l = some m → m ∈ l ∧ ∀ d ∈ l, dateKey d ≤ dateKey m := by
  induction l with
  | nil => intro m h; cases h
  | cons d ds ih =>
    intro m h
    unfold maxD at h
    cases hds : maxD ds with
    | none =>
      rw [hds] at h
      dsimp only at h
      cases h
      rw [maxD_eq_none hds]
      exact ⟨List.mem_singleton_self d, by simp⟩
    | some m' =>
      rw [hds] at h
      dsimp only at h
      obtain ⟨hmem, hall⟩ := ih m' hds
      by_cases hle : dateKey m' ≤ dateKey d
      · rw [if_pos hle] at h
        cases h
        refine ⟨List.mem_cons_self d ds, ?_⟩
        intro x hx
        rcases List.mem_cons.mp hx with rfl | hx
        · exact le_refl _
        · exact le_trans (hall x hx) hle
      · rw [if_neg hle] at h
        cases h
        refine ⟨List.mem_cons_of_mem d hmem, ?_⟩
        intro x hx
        rcases List.mem_cons.mp hx with rfl | hx
        · omega
        · exact hall x hx

/-- C10: whenever the date-filter UI hands a start date to the Show Data
handler, that start date lies within the minimum and maximum of the dates
present in the fetched table: there is an earliest record date at or before
it and a latest record date at or after it. -/
theorem claim10_start_date_bounds :
    ∀ (data : List DfRow) (choice start : Date),
      dateFilterUI data choice = some start →
      (∃ dl ∈ availableDates data, dateKey dl ≤ dateKey start
        ∧ ∀ dt ∈ availableDates data, dateKey dl ≤ dateKey dt)
      ∧ (∃ dh ∈ availableDates data, dateKey start ≤ dateKey dh
        ∧ ∀ dt ∈ availableDates data, dateKey dt ≤ dateKey dh) := by
  intro data choice start h
  unfold dateFilterUI at h
  cases hlo : minD (availableDates data) with
  | none => rw [hlo] at h; cases h
  | some lo =>
    cases hhi : maxD (availableDates data) with
    | none => rw [hlo, hhi] at h; cases h
    | some hi =>
      rw [hlo, hhi] at h
      dsimp only at h
      unfold date_input at h
      by_cases hc : dateKey lo ≤ dateKey choice ∧ dateKey choice ≤ dateKey hi
      · rw [if_pos hc] at h
        cases h
        obtain ⟨hlomem, hloall⟩ := minD_spec _ lo hlo
        obtain ⟨hhimem, hhiall⟩ := maxD_spec _ hi hhi
        exact ⟨⟨lo, hlomem, hc.1, hloall⟩, ⟨hi, hhimem, hc.2, hhiall⟩⟩
      · rw [if_neg hc] at h
        cases h

/-- Witness for C10 at a concrete two-row table and an in-range choice. -/
theorem claim10_start_date_bounds_witness :
    (∃ dl ∈ availableDates [janRow 1, janRow 3],
        dateKey dl ≤ dateKey ⟨2024, 1, 2⟩
        ∧ ∀ dt ∈ availableDates [janRow 1, janRow 3], dateKey dl ≤ dateKey dt)
    ∧ (∃ dh ∈ availableDates [janRow 1, janRow 3],
        dateKey (⟨2024, 1, 2⟩ : Date) ≤ dateKey dh
        ∧ ∀ dt ∈ availableDates [janRow 1, janRow 3], dateKey dt ≤ dateKey dh) :=
  claim10_start_date_bounds [janRow 1, janRow 3] ⟨2024, 1, 2⟩ ⟨2024, 1, 2⟩ (by decide)

/-! ### Fixed-point analysis of the geodetic conversion (C7) -/

theorem wgs84_a_pos : (0 : ℝ) < wgs84_a := by unfold wgs84_a; norm_num

theorem wgs84_f_pos : (0 : ℝ) < wgs84_f := by unfold wgs84_f; norm_num

theorem wgs84_f_lt_one : wgs84_f < 1 := by unfold wgs84_f; norm_num

theorem one_sub_f_pos : (0 : ℝ) < 1 - wgs84_f := by linarith [wgs84_f_lt_one]

theorem wgs84_b_pos : (0 : ℝ) < wgs84_b := mul_pos wgs84_a_pos one_sub_f_pos

theorem wgs84_e2_pos : (0 : ℝ) < wgs84_e2 :=
  mul_pos wgs84_f_pos (by linarith [wgs84_f_lt_one])

theorem one_sub_e2_eq : 1 - wgs84_e2 = (1 - wgs84_f) ^ 2 := by
  unfold wgs84_e2; ring

theorem one_sub_e2_pos : (0 : ℝ) < 1 - wgs84_e2 := by
  rw [one_sub_e2_eq]; exact pow_pos one_sub_f_pos 2

theorem wgs84_ep2_pos : (0 : ℝ) < wgs84_ep2 :=
  div_pos wgs84_e2_pos one_sub_e2_pos

theorem sqrt_one_sub_e2 : Real.sqrt (1 - wgs84_e2) = 1 - wgs84_f := by
  rw [one_sub_e2_eq, Real.sqrt_sq one_sub_f_pos.le]

theorem atan2_zero_of_pos (x : ℝ) (hx : 0 < x) : atan2 0 x = 0 := by
  unfold atan2
  rw [if_pos hx, zero_div, Real.arctan_zero]

theorem atan2_of_x_eq_zero (y : ℝ) (hy : 0 < y) : atan2 y 0 = Real.pi / 2 := by
  unfold atan2
  rw [if_neg (lt_irrefl 0), if_neg (lt_irrefl 0), if_pos hy]

theorem atan2_zero_zero : atan2 0 0 = 0 := by
  unfold atan2
  rw [if_neg (lt_irrefl 0), if_neg (lt_irrefl 0), if_neg (lt_irrefl 0),
    if_neg (lt_irrefl 0)]

theorem ecefP_axis : ecefP wgs84_a 0 = wgs84_a := by
  unfold ecefP
  rw [show wgs84_a ^ 2 + 0 ^ 2 = wgs84_a ^ 2 by ring, Real.sqrt_sq wgs84_a_pos.le]

theorem ecefP_pole : ecefP 0 0 = 0 := by
  unfold ecefP
  rw [show (0 : ℝ) ^ 2 + 0 ^ 2 = 0 by ring, Real.sqrt_zero]

theorem bowringTheta_axis : bowringTheta wgs84_a 0 0 = 0 := by
  unfold bowringTheta
  rw [ecefP_axis, zero_mul]
  exact atan2_zero_of_pos _ (mul_pos wgs84_a_pos wgs84_b_pos)

theorem geoLat_axis : geoLat wgs84_a 0 0 = 0 := by
  unfold geoLat
  rw [bowringTheta_axis, ecefP_axis, Real.sin_zero, Real.cos_zero]
  rw [show (0 : ℝ) + wgs84_ep2 * wgs84_b * 0 ^ 3 = 0 by ring]
  rw [show wgs84_a - wgs84_e2 * wgs84_a * 1 ^ 3 = wgs84_a * (1 - wgs84_e2) by ring]
  exact atan2_zero_of_pos _ (mul_pos wgs84_a_pos one_sub_e2_pos)

theorem geoHeight_axis : geoHeight wgs84_a 0 0 = 0 := by
  unfold geoHeight
  rw [geoLat_axis, ecefP_axis, Real.sin_zero, Real.cos_zero]
  rw [show (1 : ℝ) - wgs84_e2 * 0 ^ 2 = 1 by ring, Real.sqrt_one]
  ring

theorem bowringTheta_pole (z : ℝ) (hz : 0 < z) : bowringTheta 0 0 z = Real.pi / 2 := by
  unfold bowringTheta
  rw [ecefP_pole, zero_mul]
  exact atan2_of_x_eq_zero _ (mul_pos hz wgs84_a_pos)

theorem geoLat_pole (z : ℝ) (hz : 0 < z) : geoLat 0 0 z = Real.pi / 2 := by
  unfold geoLat
  rw [bowringTheta_pole z hz, ecefP_pole, Real.sin_pi_div_two, Real.cos_pi_div_two]
  rw [show (0 : ℝ) - wgs84_e2 * wgs84_a * 0 ^ 3 = 0 by ring]
  rw [show z + wgs84_ep2 * wgs84_b * 1 ^ 3 = z + wgs84_ep2 * wgs84_b by ring]
  exact atan2_of_x_eq_zero _ (add_pos hz (mul_pos wgs84_ep2_pos wgs84_b_pos))

theorem geoHeight_pole (z : ℝ) (hz : 0 < z) :
    geoHeight 0 0 z = z - wgs84_a * (1 - wgs84_f) := by
  unfold geoHeight
  rw [geoLat_pole z hz, ecefP_pole, Real.sin_pi_div_two, Real.cos_pi_div_two]
  rw [show (1 : ℝ) - wgs84_e2 * 1 ^ 2 = 1 - wgs84_e2 by ring, sqrt_one_sub_e2]
  ring

/-- C7: the known fixed points of the ECEF → WGS84 geodetic conversion.
`(6378137, 0, 0)` maps to latitude 0°, longitude 0° and height 0 m (within
1e-6 degrees / 1e-3 m), and the polar point `(0, 0, 6356752.314245)` maps to
latitude exactly 90° with height within 1e-3 m of 0, the longitude
`atan2(y, x)` being defined (and zero) at `x = 0` with no division error. -/
theorem claim7_fixed_points :
    (|(convert_xyz_to_lat_lon_height 6378137 0 0).1| ≤ 1 / 1000000
      ∧ |(convert_xyz_to_lat_lon_height 6378137 0 0).2.1| ≤ 1 / 1000000
      ∧ |(convert_xyz_to_lat_lon_height 6378137 0 0).2.2| ≤ 1 / 1000)
    ∧ ((convert_xyz_to_lat_lon_height 0 0 6356752.314245).1 = 90
      ∧ (convert_xyz_to_lat_lon_height 0 0 6356752.314245).2.1 = 0
      ∧ |(convert_xyz_to_lat_lon_height 0 0 6356752.314245).2.2| ≤ 1 / 1000) := by
  have ha : (6378137 : ℝ) = wgs84_a := rfl
  have hz : (0 : ℝ) < 6356752.314245 := by norm_num
  constructor
  · refine ⟨?_, ?_, ?_⟩
    · show |geoLat 6378137 0 0 * 180 / Real.pi| ≤ 1 / 1000000
      rw [ha, geoLat_axis, zero_mul, zero_div, abs_zero]
      norm_num
    · show |atan2 0 6378137 * 180 / Real.pi| ≤ 1 / 1000000
      rw [ha, atan2_zero_of_pos _ wgs84_a_pos, zero_mul, zero_div, abs_zero]
      norm_num
    · show |geoHeight 6378137 0 0| ≤ 1 / 1000
      rw [ha, geoHeight_axis, abs_zero]
      norm_num
  · refine ⟨?_, ?_, ?_⟩
    · show geoLat 0 0 6356752.314245 * 180 / Real.pi = 90
      rw [geoLat_pole _ hz]
      field_simp
      ring
    · show atan2 0 0 * 180 / Real.pi = 0
      rw [atan2_zero_zero, zero_mul, zero_div]
    · show |geoHeight 0 0 6356752.314245| ≤ 1 / 1000
      rw [geoHeight_pole _ hz]
      unfold wgs84_a wgs84_f
      rw [abs_le]
      constructor <;> norm_num

end OpusNet
